import Mathlib

set_option maxRecDepth 8192

/-!
Verification of the caie-asm emulator: a shallow embedding of the operand parser and
opcode resolver (src/lib.rs), the two-pass assembler (src/assembler.rs), and the
program loader and fetch-decode-execute engine (src/app.rs). Machine integers (u16,
usize) are modeled as Nat with explicit wrapping where the source wraps; a Rust panic
(out-of-bounds index, overflowing plain u16 addition or shift in a debug build) is
modeled as none.
-/

deriving instance DecidableEq for Except

inductive Register where
  | Ix
  | Acc
deriving DecidableEq, Repr

inductive Opcode where
  | Ldm
  | Ldd
  | Ldi
  | Ldx
  | Ldr
  | Mov
  | Sto
  | Add
  | Sub
  | Inc
  | Dec
  | Jmp
  | Cmp
  | Cmi
  | Jpe
  | Jpn
  | In
  | Out
  | End
  | And
  | Xor
  | Or
  | Lsl
  | Lsr
  | Data (v : Nat)
deriving DecidableEq, Repr

inductive Operand where
  | Register (r : Register)
  | Address (a : Nat)
  | Immediate (v : Nat)
  | Empty
deriving DecidableEq, Repr

inductive MemoryData where
  | Instruction (op : Opcode) (opnd : Operand)
  | Value (v : Nat)
deriving DecidableEq, Repr

inductive ExecutionState where
  | Executing
  | ExecutingAwaitingInput
  | SteppingAwaitingInput
  | Stopped
deriving DecidableEq, Repr

inductive ExecutionInfo where
  | ExecutionTerminated (ins_address : Nat)
  | ExecutionAbortedValueMet (ins_address value : Nat)
  | TooManySteps (steps : Nat)
  | AddressNotInMemory (ins_address requested_address : Nat)
  | InvalidLoad (ins_address requested_address : Nat)
deriving DecidableEq, Repr

inductive AssemblerError where
  | TooManyOperands (line_index operands_found : Nat)
  | UnknownOpcode (line_index : Nat) (opcode : List Char)
  | MalformedOperand (line_index : Nat) (operand : List Char)
  | RedundantOperand (line_index : Nat) (opcode : Opcode) (operand : Operand)
  | IncorrectOperand (line_index : Nat) (opcode : Opcode) (operand_given : Operand)
      (operand_type_expected : List Char)
  | MissingOperand (line_index : Nat) (opcode : Opcode)
  | ProgramTooLong (program_size memory_available : Nat)
deriving DecidableEq, Repr

/-- Rust char::to_digit for the radixes the parser uses (2, 10, 16). -/
def charToDigit (radix : Nat) (c : Char) : Option Nat :=
  let d :=
    if '0' ≤ c ∧ c ≤ '9' then some (c.toNat - '0'.toNat)
    else if 'a' ≤ c ∧ c ≤ 'z' then some (c.toNat - 'a'.toNat + 10)
    else if 'A' ≤ c ∧ c ≤ 'Z' then some (c.toNat - 'A'.toNat + 10)
    else none
  match d with
  | some v => if v < radix then some v else none
  | none => none

/-- Digit fold of u16::from_str_radix / str::parse::<u16>. Rust checks overflow at each
step; the running value is monotone in the digits consumed, so checking the final value
against 2^16 is equivalent. -/
def digitsToNat (radix : Nat) : List Char → Option Nat → Option Nat
  | [], acc => acc
  | c :: rest, acc =>
    match acc, charToDigit radix c with
    | some a, some d => digitsToNat radix rest (some (a * radix + d))
    | _, _ => none

/-- u16::from_str_radix / str::parse::<u16>: an optional leading plus sign, then at least
one digit of the radix, and the value must fit in 16 bits. A minus sign is rejected for
an unsigned type. -/
def parseU16 (radix : Nat) (s : List Char) : Option Nat :=
  let digits :=
    match s with
    | '+' :: rest => rest
    | _ => s
  if digits = [] then none
  else
    match digitsToNat radix digits (some 0) with
    | some v => if v < 65536 then some v else none
    | none => none

/-- The assembler symbol table: HashMap<&str, usize>, with HashMap::insert modeled by
prepending so that the first hit of a lookup is the most recent insertion. -/
def SymTable := List (List Char × Nat)

/-- HashMap::get on the symbol table. -/
def lookupTbl (tbl : SymTable) (s : List Char) : Option Nat :=
  match tbl with
  | [] => none
  | (k, v) :: rest => if k = s then some v else lookupTbl rest s

/-- Operand::str_to_operand (src/lib.rs lines 99-128). The symbol-table hit stores the
usize offset cast to u16, hence the modulus. -/
def str_to_operand (s : List Char) (tbl : SymTable) : Option Operand :=
  if s = ['I', 'X'] then some (Operand.Register Register.Ix)
  else if s = ['A', 'C', 'C'] then some (Operand.Register Register.Acc)
  else if s.head? = some '&' then
    match parseU16 16 s.tail with
    | some v => some (Operand.Immediate v)
    | none => none
  else if s.head? = some 'B' then
    match parseU16 2 s.tail with
    | some v => some (Operand.Immediate v)
    | none => none
  else if s.head? = some '#' then
    match parseU16 10 s.tail with
    | some v => some (Operand.Immediate v)
    | none => none
  else
    match parseU16 10 s with
    | some v => some (Operand.Address v)
    | none =>
      match lookupTbl tbl s with
      | some off => some (Operand.Address (off % 65536))
      | none => none

/-- Opcode::try_from<&str> (src/lib.rs lines 50-87): the 24 mnemonics, then the fallback
that a token parsing as an Immediate is a raw data word. -/
def opcodeFromStr (s : List Char) : Option Opcode :=
  if s = ['L', 'D', 'M'] then some Opcode.Ldm
  else if s = ['L', 'D', 'D'] then some Opcode.Ldd
  else if s = ['L', 'D', 'I'] then some Opcode.Ldi
  else if s = ['L', 'D', 'X'] then some Opcode.Ldx
  else if s = ['L', 'D', 'R'] then some Opcode.Ldr
  else if s = ['M', 'O', 'V'] then some Opcode.Mov
  else if s = ['S', 'T', 'O'] then some Opcode.Sto
  else if s = ['A', 'D', 'D'] then some Opcode.Add
  else if s = ['S', 'U', 'B'] then some Opcode.Sub
  else if s = ['I', 'N', 'C'] then some Opcode.Inc
  else if s = ['D', 'E', 'C'] then some Opcode.Dec
  else if s = ['J', 'M', 'P'] then some Opcode.Jmp
  else if s = ['C', 'M', 'P'] then some Opcode.Cmp
  else if s = ['C', 'M', 'I'] then some Opcode.Cmi
  else if s = ['J', 'P', 'E'] then some Opcode.Jpe
  else if s = ['J', 'P', 'N'] then some Opcode.Jpn
  else if s = ['I', 'N'] then some Opcode.In
  else if s = ['O', 'U', 'T'] then some Opcode.Out
  else if s = ['E', 'N', 'D'] then some Opcode.End
  else if s = ['A', 'N', 'D'] then some Opcode.And
  else if s = ['X', 'O', 'R'] then some Opcode.Xor
  else if s = ['O', 'R'] then some Opcode.Or
  else if s = ['L', 'S', 'L'] then some Opcode.Lsl
  else if s = ['L', 'S', 'R'] then some Opcode.Lsr
  else
    match str_to_operand s [] with
    | some (Operand.Immediate v) => some (Opcode.Data v)
    | _ => none

/-- Everything before the first "//" of a line (line.split("//").next()). -/
def beforeComment : List Char → List Char
  | [] => []
  | '/' :: '/' :: _ => []
  | c :: rest => c :: beforeComment rest

/-- The whitespace class used for trim / split_whitespace. -/
def isWsChar (c : Char) : Bool :=
  c == ' ' || c == '\t' || c == '\n' || c == '\r'

/-- str::trim. -/
def trimWs (s : List Char) : List Char :=
  ((s.dropWhile isWsChar).reverse.dropWhile isWsChar).reverse

def splitWsAux : List Char → List Char → List (List Char)
  | [], cur => if cur = [] then [] else [cur.reverse]
  | c :: rest, cur =>
    if isWsChar c then
      if cur = [] then splitWsAux rest []
      else cur.reverse :: splitWsAux rest []
    else splitWsAux rest (c :: cur)

/-- str::split_whitespace collected to a Vec. -/
def splitWs (s : List Char) : List (List Char) :=
  splitWsAux s []

/-- parts[0].ends_with(':'). -/
def endsWithColon (s : List Char) : Bool :=
  s.getLast? = some ':'

/-- str::trim_end_matches(":"): remove every trailing colon. -/
def trimEndColons (s : List Char) : List Char :=
  (s.reverse.dropWhile (fun c => c == ':')).reverse

def splitNl : List Char → List (List Char)
  | [] => [[]]
  | '\n' :: rest => [] :: splitNl rest
  | c :: rest =>
    match splitNl rest with
    | [] => [[c]]
    | l :: ls => (c :: l) :: ls

def stripCr (l : List Char) : List Char :=
  if l.getLast? = some '\r' then l.dropLast else l

/-- str::lines(): split at newlines, the final line ending optional, a trailing carriage
return removed from each line. -/
def rustLines (s : List Char) : List (List Char) :=
  let parts := splitNl s
  let parts := if parts.getLast? = some [] then parts.dropLast else parts
  parts.map stripCr

/-- The token list of one source line: comment stripped, trimmed, whitespace-split. -/
def lineTokens (line : List Char) : List (List Char) :=
  splitWs (trimWs (beforeComment line))

/-- First pass of assemble (src/assembler.rs lines 12-25): build the symbol table,
counting a slot for every line that still has content once a leading label is removed. -/
def pass1 : List (List Char) → Nat → SymTable → SymTable
  | [], _, tbl => tbl
  | line :: rest, off, tbl =>
    match lineTokens line with
    | [] => pass1 rest off tbl
    | p0 :: ps =>
      if endsWithColon p0 then
        let tbl := (trimEndColons p0, off) :: tbl
        if ps = [] then pass1 rest off tbl else pass1 rest (off + 1) tbl
      else pass1 rest (off + 1) tbl

def kindNumber : List Char := ['N', 'u', 'm', 'b', 'e', 'r']

def kindAddress : List Char := ['A', 'd', 'd', 'r', 'e', 's', 's']

def kindRegister : List Char := ['R', 'e', 'g', 'i', 's', 't', 'e', 'r']

def kindAddressOrNumber : List Char :=
  ['A', 'd', 'd', 'r', 'e', 's', 's', '/', 'N', 'u', 'm', 'b', 'e', 'r']

/-- The per-opcode operand check of pass 2 for a line carrying one operand token
(src/assembler.rs lines 86-358); the fall-through arm is RedundantOperand. -/
def checkOperandLine (idx : Nat) (opcode : Opcode) (operand : Operand) :
    Except AssemblerError (Opcode × Operand) :=
  match opcode with
  | Opcode.Ldm | Opcode.Ldr | Opcode.Lsl | Opcode.Lsr =>
    match operand with
    | Operand.Immediate _ => Except.ok (opcode, operand)
    | _ => Except.error (AssemblerError.IncorrectOperand (idx + 1) opcode operand kindNumber)
  | Opcode.Ldd | Opcode.Ldi | Opcode.Ldx | Opcode.Sto
  | Opcode.Jmp | Opcode.Cmi | Opcode.Jpe | Opcode.Jpn =>
    match operand with
    | Operand.Address _ => Except.ok (opcode, operand)
    | _ => Except.error (AssemblerError.IncorrectOperand (idx + 1) opcode operand kindAddress)
  | Opcode.Mov | Opcode.Inc | Opcode.Dec =>
    match operand with
    | Operand.Register _ => Except.ok (opcode, operand)
    | _ => Except.error (AssemblerError.IncorrectOperand (idx + 1) opcode operand kindRegister)
  | Opcode.Add | Opcode.Sub | Opcode.Cmp | Opcode.And | Opcode.Xor | Opcode.Or =>
    match operand with
    | Operand.Address _ | Operand.Immediate _ => Except.ok (opcode, operand)
    | _ =>
      Except.error (AssemblerError.IncorrectOperand (idx + 1) opcode operand kindAddressOrNumber)
  | _ => Except.error (AssemblerError.RedundantOperand (idx + 1) opcode operand)

/-- The token list of a line in pass 2, a leading label removed
(src/assembler.rs lines 30-39). -/
def linePartsNoLabel (line : List Char) : List (List Char) :=
  match lineTokens line with
  | [] => []
  | p0 :: ps => if endsWithColon p0 then ps else p0 :: ps

/-- Processing of one line in pass 2 of assemble (src/assembler.rs lines 28-359):
ok none means the line emits no instruction. -/
def pass2Line (tbl : SymTable) (idx : Nat) (line : List Char) :
    Except AssemblerError (Option (Opcode × Operand)) :=
  match linePartsNoLabel line with
  | [] => Except.ok none
  | p0 :: ps =>
    if 2 < (p0 :: ps).length then
      Except.error (AssemblerError.TooManyOperands (idx + 1) ((p0 :: ps).length - 1))
    else
      match opcodeFromStr p0 with
      | none => Except.error (AssemblerError.UnknownOpcode (idx + 1) p0)
      | some opcode =>
        match ps with
        | [] =>
          match opcode with
          | Opcode.In => Except.ok (some (Opcode.In, Operand.Empty))
          | Opcode.Out => Except.ok (some (Opcode.Out, Operand.Empty))
          | Opcode.End => Except.ok (some (Opcode.End, Operand.Empty))
          | Opcode.Data v => Except.ok (some (Opcode.Data v, Operand.Immediate v))
          | _ => Except.error (AssemblerError.MissingOperand (idx + 1) opcode)
        | p1 :: _ =>
          match str_to_operand p1 tbl with
          | none => Except.error (AssemblerError.MalformedOperand (idx + 1) p1)
          | some operand =>
            match checkOperandLine idx opcode operand with
            | Except.ok ins => Except.ok (some ins)
            | Except.error e => Except.error e

/-- Second pass of assemble: scan every line, pushing the emitted instructions in
order; the first error aborts. -/
def pass2 (tbl : SymTable) :
    List (List Char) → Nat → List (Opcode × Operand) →
      Except AssemblerError (List (Opcode × Operand))
  | [], _, acc => Except.ok acc
  | line :: rest, idx, acc =>
    match pass2Line tbl idx line with
    | Except.error e => Except.error e
    | Except.ok none => pass2 tbl rest (idx + 1) acc
    | Except.ok (some ins) => pass2 tbl rest (idx + 1) (acc ++ [ins])

/-- assemble (src/assembler.rs lines 5-362). -/
def assemble (source : List Char) : Except AssemblerError (List (Opcode × Operand)) :=
  let lines := rustLines source
  pass2 (pass1 lines 0 []) lines 0 []

inductive LoadResult where
  | tooLong (program_size memory_available : Nat)
  | crash
  | ok (memory : List MemoryData)
deriving DecidableEq, Repr

/-- How one assembled instruction is stored by the loader (src/app.rs lines 126-137):
a Data word becomes a plain Value cell; an Address operand is relocated by the load
location (a u16 addition, so an overflowing relocation is a debug-build abort, none). -/
def storeCell (load_location : Nat) (op : Opcode) (opnd : Operand) : Option MemoryData :=
  match op with
  | Opcode.Data v => some (MemoryData.Value v)
  | _ =>
    match opnd with
    | Operand.Address v =>
      if v + load_location < 65536 then
        some (MemoryData.Instruction op (Operand.Address (v + load_location)))
      else none
    | _ => some (MemoryData.Instruction op opnd)

/-- The write loop of the loader: instruction i goes to flattened cell
load_location + i (src/app.rs lines 124-138). -/
def loadWrite (load_location : Nat) :
    List (Opcode × Operand) → Nat → List MemoryData → Option (List MemoryData)
  | [], _, mem => some mem
  | ins :: rest, i, mem =>
    match storeCell load_location ins.1 ins.2 with
    | some cell => loadWrite load_location rest (i + 1) (mem.set (load_location + i) cell)
    | none => none

/-- The assemble-and-load branch of AppContext::source_editor (src/app.rs lines
114-139): the size check against 256 - load_location happens before any write. -/
def loadProgram (program : List (Opcode × Operand)) (load_location : Nat)
    (mem : List MemoryData) : LoadResult :=
  if 256 - load_location < program.length then
    LoadResult.tooLong program.length (256 - load_location)
  else
    match loadWrite load_location program 0 mem with
    | some mem => LoadResult.ok mem
    | none => LoadResult.crash

/-- The engine state: the fields of AppContext (src/app.rs lines 46-75) that the
assembler, loader and step logic touch; presentation-only fields are omitted. The
256-cell memory is kept flattened (the source's 16 × 16 grid is indexed as
index / 16, index % 16, i.e. flattened). Console output and input hold Unicode
code points. -/
structure AppContext where
  memory : List MemoryData
  pc : Nat
  cir : Opcode × Operand
  ix : Nat
  mdr : MemoryData
  mar : Nat
  acc : Nat
  carry : Bool
  zero : Bool
  overflow : Bool
  sign : Bool
  output : List Nat
  input : List Nat
  execution_state : ExecutionState
  execution_info : Option ExecutionInfo
  ins_executed : Nat
deriving DecidableEq, Repr

/-- u16::overflowing_add. -/
def overflowingAdd (x y : Nat) : Nat × Bool :=
  ((x + y) % 65536, decide (65536 ≤ x + y))

/-- u16::overflowing_sub, faithful for in-range (< 2^16) arguments. -/
def overflowingSub (x y : Nat) : Nat × Bool :=
  ((x + 65536 - y) % 65536, decide (x < y))

/-- result & 0x8000 != 0. -/
def bit15 (x : Nat) : Bool :=
  x.testBit 15

/-- char::from_u32 applied to a u16 by Opcode::Out: only surrogate values are invalid
and print the replacement character U+FFFD. -/
def outCode (v : Nat) : Nat :=
  if 55296 ≤ v ∧ v ≤ 57343 then 65533 else v

/-- The decode/execute stage of AppContext::step (src/app.rs lines 417-1026), given the
already-fetched opcode and operand and the address the instruction was fetched from.
The unreachable/unimplemented arms for operand kinds the assembler never emits are
aborts, modeled as none, as are out-of-range memory indexes and (debug-build)
overflowing u16 additions and shifts. -/
def execIns : Opcode → Operand → Nat → AppContext → Option AppContext
  | Opcode.Ldm, Operand.Immediate v, _, s => some { s with acc := v }
  | Opcode.Ldm, _, _, _ => none
  | Opcode.Ldd, Operand.Address a, cur, s =>
    let s := { s with mar := a }
    match s.memory[a]? with
    | some (MemoryData.Value v) => some { s with mdr := MemoryData.Value v, acc := v }
    | some (MemoryData.Instruction _ _) =>
      some { s with execution_info := some (ExecutionInfo.InvalidLoad cur a),
                    execution_state := ExecutionState.Stopped }
    | none => none
  | Opcode.Ldd, _, _, _ => none
  | Opcode.Ldi, Operand.Address a, cur, s =>
    let s := { s with mar := a }
    match s.memory[a]? with
    | some (MemoryData.Value v) =>
      let s := { s with mdr := MemoryData.Value v, mar := v }
      if 255 < v then
        some { s with execution_info := some (ExecutionInfo.AddressNotInMemory cur v),
                      execution_state := ExecutionState.Stopped }
      else
        match s.memory[v]? with
        | some (MemoryData.Value w) => some { s with acc := w }
        | some (MemoryData.Instruction _ _) =>
          some { s with execution_info := some (ExecutionInfo.InvalidLoad cur v),
                        execution_state := ExecutionState.Stopped }
        | none => none
    | some (MemoryData.Instruction _ _) =>
      some { s with execution_info := some (ExecutionInfo.InvalidLoad cur a),
                    execution_state := ExecutionState.Stopped }
    | none => none
  | Opcode.Ldi, _, _, _ => none
  | Opcode.Ldx, Operand.Address a, cur, s =>
    if 65536 ≤ a + s.ix then none
    else
      let s := { s with mar := a + s.ix }
      if 255 < a + s.ix then
        some { s with
                 execution_info := some (ExecutionInfo.AddressNotInMemory cur (a + s.ix)),
                 execution_state := ExecutionState.Stopped }
      else
        match s.memory[a + s.ix]? with
        | some (MemoryData.Value v) => some { s with mdr := MemoryData.Value v, acc := v }
        | some (MemoryData.Instruction _ _) =>
          some { s with execution_info := some (ExecutionInfo.InvalidLoad cur (a + s.ix)),
                        execution_state := ExecutionState.Stopped }
        | none => none
  | Opcode.Ldx, _, _, _ => none
  | Opcode.Ldr, Operand.Immediate v, _, s => some { s with ix := v }
  | Opcode.Ldr, _, _, _ => none
  | Opcode.Mov, Operand.Register Register.Ix, _, s => some { s with ix := s.acc }
  | Opcode.Mov, Operand.Register Register.Acc, _, s => some s
  | Opcode.Mov, _, _, _ => none
  | Opcode.Sto, Operand.Address a, cur, s =>
    let s := { s with mar := a, mdr := MemoryData.Value s.acc }
    if 255 < a then
      some { s with execution_info := some (ExecutionInfo.AddressNotInMemory cur a),
                    execution_state := ExecutionState.Stopped }
    else if a < s.memory.length then
      some { s with memory := s.memory.set a (MemoryData.Value s.acc) }
    else none
  | Opcode.Sto, _, _, _ => none
  | Opcode.Add, Operand.Immediate v, _, s =>
    let r := overflowingAdd s.acc v
    some { s with acc := r.1, carry := r.2, zero := decide (r.1 = 0),
                  overflow := r.2, sign := bit15 r.1 }
  | Opcode.Add, Operand.Address a, cur, s =>
    let s := { s with mar := a }
    if 255 < a then
      some { s with execution_info := some (ExecutionInfo.AddressNotInMemory cur a),
                    execution_state := ExecutionState.Stopped }
    else
      match s.memory[a]? with
      | some (MemoryData.Value v) =>
        let r := overflowingAdd s.acc v
        some { s with mdr := MemoryData.Value v, acc := r.1, carry := r.2,
                      zero := decide (r.1 = 0), overflow := r.2, sign := bit15 r.1 }
      | some (MemoryData.Instruction o od) =>
        some { s with mdr := MemoryData.Instruction o od,
                      execution_info := some (ExecutionInfo.InvalidLoad cur a),
                      execution_state := ExecutionState.Stopped }
      | none => none
  | Opcode.Add, _, _, _ => none
  | Opcode.Sub, Operand.Immediate v, _, s =>
    let r := overflowingSub s.acc v
    some { s with acc := r.1, carry := r.2, zero := decide (r.1 = 0),
                  overflow := r.2, sign := bit15 r.1 }
  | Opcode.Sub, Operand.Address a, cur, s =>
    let s := { s with mar := a }
    if 255 < a then
      some { s with execution_info := some (ExecutionInfo.AddressNotInMemory cur a),
                    execution_state := ExecutionState.Stopped }
    else
      match s.memory[a]? with
      | some (MemoryData.Value v) =>
        let r := overflowingSub s.acc v
        some { s with mdr := MemoryData.Value v, acc := r.1, carry := r.2,
                      zero := decide (r.1 = 0), overflow := r.2, sign := bit15 r.1 }
      | some (MemoryData.Instruction o od) =>
        some { s with mdr := MemoryData.Instruction o od,
                      execution_info := some (ExecutionInfo.InvalidLoad cur a),
                      execution_state := ExecutionState.Stopped }
      | none => none
  | Opcode.Sub, _, _, _ => none
  | Opcode.Inc, Operand.Register Register.Ix, _, s =>
    let r := overflowingAdd s.ix 1
    some { s with ix := r.1, zero := decide (r.1 = 0), overflow := r.2, sign := bit15 r.1 }
  | Opcode.Inc, Operand.Register Register.Acc, _, s =>
    let r := overflowingAdd s.acc 1
    some { s with acc := r.1, zero := decide (r.1 = 0), overflow := r.2, sign := bit15 r.1 }
  | Opcode.Inc, _, _, _ => none
  | Opcode.Dec, Operand.Register Register.Ix, _, s =>
    let r := overflowingSub s.ix 1
    some { s with ix := r.1, zero := decide (r.1 = 0), overflow := r.2, sign := bit15 r.1 }
  | Opcode.Dec, Operand.Register Register.Acc, _, s =>
    let r := overflowingSub s.acc 1
    some { s with acc := r.1, zero := decide (r.1 = 0), overflow := r.2, sign := bit15 r.1 }
  | Opcode.Dec, _, _, _ => none
  | Opcode.Jmp, Operand.Address a, cur, s =>
    if 255 < a then
      some { s with execution_info := some (ExecutionInfo.AddressNotInMemory cur a),
                    execution_state := ExecutionState.Stopped }
    else some { s with pc := a }
  | Opcode.Jmp, _, _, _ => none
  | Opcode.Cmp, Operand.Immediate v, _, s =>
    let r := overflowingSub s.acc v
    some { s with carry := r.2, zero := decide (r.1 = 0), overflow := r.2,
                  sign := bit15 r.1 }
  | Opcode.Cmp, Operand.Address a, cur, s =>
    let s := { s with mar := a }
    if 255 < a then
      some { s with execution_info := some (ExecutionInfo.AddressNotInMemory cur a),
                    execution_state := ExecutionState.Stopped }
    else
      match s.memory[a]? with
      | some (MemoryData.Value v) =>
        let r := overflowingSub s.acc v
        some { s with mdr := MemoryData.Value v, carry := r.2, zero := decide (r.1 = 0),
                      overflow := r.2, sign := bit15 r.1 }
      | some (MemoryData.Instruction o od) =>
        some { s with mdr := MemoryData.Instruction o od,
                      execution_info := some (ExecutionInfo.InvalidLoad cur a),
                      execution_state := ExecutionState.Stopped }
      | none => none
  | Opcode.Cmp, _, _, _ => none
  | Opcode.Cmi, Operand.Address a, cur, s =>
    let s := { s with mar := a }
    if 255 < a then
      some { s with execution_info := some (ExecutionInfo.AddressNotInMemory cur a),
                    execution_state := ExecutionState.Stopped }
    else
      match s.memory[a]? with
      | some (MemoryData.Value v) =>
        let s := { s with mdr := MemoryData.Value v, mar := v }
        if 255 < v then
          some { s with execution_info := some (ExecutionInfo.AddressNotInMemory cur v),
                        execution_state := ExecutionState.Stopped }
        else
          match s.memory[v]? with
          | some (MemoryData.Value w) =>
            let r := overflowingSub s.acc w
            some { s with mdr := MemoryData.Value w, carry := r.2,
                          zero := decide (r.1 = 0), overflow := r.2, sign := bit15 r.1 }
          | some (MemoryData.Instruction o od) =>
            some { s with mdr := MemoryData.Instruction o od,
                          execution_info := some (ExecutionInfo.InvalidLoad cur v),
                          execution_state := ExecutionState.Stopped }
          | none => none
      | some (MemoryData.Instruction o od) =>
        some { s with mdr := MemoryData.Instruction o od,
                      execution_info := some (ExecutionInfo.InvalidLoad cur a),
                      execution_state := ExecutionState.Stopped }
      | none => none
  | Opcode.Cmi, _, _, _ => none
  | Opcode.Jpe, Operand.Address a, cur, s =>
    if s.zero then
      if 255 < a then
        some { s with execution_info := some (ExecutionInfo.AddressNotInMemory cur a),
                      execution_state := ExecutionState.Stopped }
      else some { s with pc := a }
    else some s
  | Opcode.Jpe, _, _, _ => none
  | Opcode.Jpn, Operand.Address a, cur, s =>
    if s.zero then some s
    else
      if 255 < a then
        some { s with execution_info := some (ExecutionInfo.AddressNotInMemory cur a),
                      execution_state := ExecutionState.Stopped }
      else some { s with pc := a }
  | Opcode.Jpn, _, _, _ => none
  | Opcode.In, _, _, s =>
    if s.execution_state = ExecutionState.Executing then
      some { s with execution_state := ExecutionState.ExecutingAwaitingInput }
    else some { s with execution_state := ExecutionState.SteppingAwaitingInput }
  | Opcode.Out, _, _, s => some { s with output := s.output ++ [outCode s.acc] }
  | Opcode.End, _, cur, s =>
    some { s with execution_info := some (ExecutionInfo.ExecutionTerminated cur),
                  execution_state := ExecutionState.Stopped }
  | Opcode.And, Operand.Immediate v, _, s =>
    let r := s.acc &&& v
    some { s with acc := r, zero := decide (r = 0), sign := bit15 r }
  | Opcode.And, Operand.Address a, cur, s =>
    let s := { s with mar := a }
    if 255 < a then
      some { s with execution_info := some (ExecutionInfo.AddressNotInMemory cur a),
                    execution_state := ExecutionState.Stopped }
    else
      match s.memory[a]? with
      | some (MemoryData.Value v) =>
        let r := s.acc &&& v
        some { s with mdr := MemoryData.Value v, acc := r, zero := decide (r = 0),
                      sign := bit15 r }
      | some (MemoryData.Instruction o od) =>
        some { s with mdr := MemoryData.Instruction o od,
                      execution_info := some (ExecutionInfo.InvalidLoad cur a),
                      execution_state := ExecutionState.Stopped }
      | none => none
  | Opcode.And, _, _, _ => none
  | Opcode.Xor, Operand.Immediate v, _, s =>
    let r := s.acc ^^^ v
    some { s with acc := r, zero := decide (r = 0), sign := bit15 r }
  | Opcode.Xor, Operand.Address a, cur, s =>
    let s := { s with mar := a }
    if 255 < a then
      some { s with execution_info := some (ExecutionInfo.AddressNotInMemory cur a),
                    execution_state := ExecutionState.Stopped }
    else
      match s.memory[a]? with
      | some (MemoryData.Value v) =>
        let r := s.acc ^^^ v
        some { s with mdr := MemoryData.Value v, acc := r, zero := decide (r = 0),
                      sign := bit15 r }
      | some (MemoryData.Instruction o od) =>
        some { s with mdr := MemoryData.Instruction o od,
                      execution_info := some (ExecutionInfo.InvalidLoad cur a),
                      execution_state := ExecutionState.Stopped }
      | none => none
  | Opcode.Xor, _, _, _ => none
  | Opcode.Or, Operand.Immediate v, _, s =>
    let r := s.acc ||| v
    some { s with acc := r, zero := decide (r = 0), sign := bit15 r }
  | Opcode.Or, Operand.Address a, cur, s =>
    let s := { s with mar := a }
    if 255 < a then
      some { s with execution_info := some (ExecutionInfo.AddressNotInMemory cur a),
                    execution_state := ExecutionState.Stopped }
    else
      match s.memory[a]? with
      | some (MemoryData.Value v) =>
        let r := s.acc ||| v
        some { s with mdr := MemoryData.Value v, acc := r, zero := decide (r = 0),
                      sign := bit15 r }
      | some (MemoryData.Instruction o od) =>
        some { s with mdr := MemoryData.Instruction o od,
                      execution_info := some (ExecutionInfo.InvalidLoad cur a),
                      execution_state := ExecutionState.Stopped }
      | none => none
  | Opcode.Or, _, _, _ => none
  | Opcode.Lsl, Operand.Immediate v, _, s =>
    if 16 ≤ v then none
    else
      let r := (s.acc <<< v) % 65536
      some { s with acc := r, zero := decide (r = 0), sign := bit15 r }
  | Opcode.Lsl, Operand.Address a, cur, s =>
    let s := { s with mar := a }
    if 255 < a then
      some { s with execution_info := some (ExecutionInfo.AddressNotInMemory cur a),
                    execution_state := ExecutionState.Stopped }
    else
      match s.memory[a]? with
      | some (MemoryData.Value v) =>
        if 16 ≤ v then none
        else
          let r := (s.acc <<< v) % 65536
          some { s with mdr := MemoryData.Value v, acc := r, zero := decide (r = 0),
                        sign := bit15 r }
      | some (MemoryData.Instruction o od) =>
        some { s with mdr := MemoryData.Instruction o od,
                      execution_info := some (ExecutionInfo.InvalidLoad cur a),
                      execution_state := ExecutionState.Stopped }
      | none => none
  | Opcode.Lsl, _, _, _ => none
  | Opcode.Lsr, Operand.Immediate v, _, s =>
    if 16 ≤ v then none
    else
      let r := s.acc >>> v
      some { s with acc := r, zero := decide (r = 0), sign := bit15 r }
  | Opcode.Lsr, Operand.Address a, cur, s =>
    let s := { s with mar := a }
    if 255 < a then
      some { s with execution_info := some (ExecutionInfo.AddressNotInMemory cur a),
                    execution_state := ExecutionState.Stopped }
    else
      match s.memory[a]? with
      | some (MemoryData.Value v) =>
        if 16 ≤ v then none
        else
          let r := s.acc >>> v
          some { s with mdr := MemoryData.Value v, acc := r, zero := decide (r = 0),
                        sign := bit15 r }
      | some (MemoryData.Instruction o od) =>
        some { s with mdr := MemoryData.Instruction o od,
                      execution_info := some (ExecutionInfo.InvalidLoad cur a),
                      execution_state := ExecutionState.Stopped }
      | none => none
  | Opcode.Lsr, _, _, _ => none
  | Opcode.Data _, _, _, _ => none

/-- The safety-counter check at the top of AppContext::step (src/app.rs lines
387-392): at 1000 cumulative instructions a TooManySteps advisory is recorded and the
step proceeds. -/
def tooManyCheck (s : AppContext) : AppContext :=
  if 1000 ≤ s.ins_executed then
    { s with execution_info := some (ExecutionInfo.TooManySteps s.ins_executed) }
  else s

/-- AppContext::step (src/app.rs lines 386-1027): safety counter, then fetch the cell
at PC into MDR/MAR; a Value cell stops execution (terminated on 0, aborted otherwise);
an Instruction cell is copied into CIR, PC is incremented, and the opcode executes. -/
def step (s : AppContext) : Option AppContext :=
  let s := tooManyCheck s
  match s.memory[s.pc]? with
  | some (MemoryData.Value v) =>
    if v = 0 then
      some { s with mar := s.pc, mdr := MemoryData.Value v,
                    execution_info := some (ExecutionInfo.ExecutionTerminated s.pc),
                    execution_state := ExecutionState.Stopped }
    else
      some { s with mar := s.pc, mdr := MemoryData.Value v,
                    execution_info := some (ExecutionInfo.ExecutionAbortedValueMet s.pc v),
                    execution_state := ExecutionState.Stopped }
  | some (MemoryData.Instruction op opnd) =>
    execIns op opnd s.pc
      { s with mar := s.pc, mdr := MemoryData.Instruction op opnd,
               cir := (op, opnd), pc := s.pc + 1 }
  | none => none

/-- The console Send button (src/app.rs lines 173-187): enabled only with pending
input while awaiting; resumes (or, when stepping, halts), stores the first input
character cast to u16 into ACC, and clears the input buffer. -/
def sendInput (s : AppContext) : Option AppContext :=
  match s.input with
  | [] => none
  | c :: _ =>
    match s.execution_state with
    | ExecutionState.ExecutingAwaitingInput =>
      some { s with execution_state := ExecutionState.Executing, acc := c % 65536,
                    input := [] }
    | ExecutionState.SteppingAwaitingInput =>
      some { s with execution_state := ExecutionState.Stopped, acc := c % 65536,
                    input := [] }
    | _ => none

/-- The initial AppContext of CaieAsmApp::default (src/app.rs lines 1055-1090),
restricted to the modeled fields. -/
def initCtx : AppContext where
  memory := List.replicate 256 (MemoryData.Value 0)
  pc := 0
  cir := (Opcode.End, Operand.Empty)
  ix := 0
  mdr := MemoryData.Value 0
  mar := 0
  acc := 0
  carry := false
  zero := false
  overflow := false
  sign := false
  output := []
  input := []
  execution_state := ExecutionState.Stopped
  execution_info := none
  ins_executed := 0

/-- The memory after loading a single LDM instruction at base address 255. -/
def c9mem : List MemoryData :=
  (List.replicate 256 (MemoryData.Value 0)).set 255
    (MemoryData.Instruction Opcode.Ldm (Operand.Immediate 0))

/-- A running state about to fetch the instruction at address 255. -/
def c9s : AppContext :=
  { initCtx with memory := c9mem, pc := 255, execution_state := ExecutionState.Executing }

/-- The state after executing the non-jump instruction at address 255: PC is 256. -/
def c9s2 : AppContext :=
  { c9s with
    mar := 255,
    mdr := MemoryData.Instruction Opcode.Ldm (Operand.Immediate 0),
    cir := (Opcode.Ldm, Operand.Immediate 0),
    pc := 256,
    acc := 0 }

/-- The source text "LDR #65535 / LDX 65535": IX from a 16-bit immediate and a
plain-decimal address of 65535. -/
def c10src : List Char :=
  ['L', 'D', 'R', ' ', '#', '6', '5', '5', '3', '5', '\n',
   'L', 'D', 'X', ' ', '6', '5', '5', '3', '5']

def c10prog : List (Opcode × Operand) :=
  [(Opcode.Ldr, Operand.Immediate 65535), (Opcode.Ldx, Operand.Address 65535)]

def c10mem : List MemoryData :=
  ((List.replicate 256 (MemoryData.Value 0)).set 0
      (MemoryData.Instruction Opcode.Ldr (Operand.Immediate 65535))).set 1
    (MemoryData.Instruction Opcode.Ldx (Operand.Address 65535))

def c10s : AppContext :=
  { initCtx with memory := c10mem, execution_state := ExecutionState.Executing }

/-- The state after LDR #65535: IX = 65535, about to fetch LDX 65535. -/
def c10s2 : AppContext :=
  { c10s with
    mar := 0,
    mdr := MemoryData.Instruction Opcode.Ldr (Operand.Immediate 65535),
    cir := (Opcode.Ldr, Operand.Immediate 65535),
    pc := 1,
    ix := 65535 }

/-- The per-opcode operand table as the spec states it, for comparison with what the
assembler emits (claim C2). -/
def operandTable (op : Opcode) (opnd : Operand) : Bool :=
  match op with
  | Opcode.Ldm | Opcode.Ldr | Opcode.Lsl | Opcode.Lsr =>
    match opnd with
    | Operand.Immediate _ => true
    | _ => false
  | Opcode.Ldd | Opcode.Ldi | Opcode.Ldx | Opcode.Sto
  | Opcode.Jmp | Opcode.Cmi | Opcode.Jpe | Opcode.Jpn =>
    match opnd with
    | Operand.Address _ => true
    | _ => false
  | Opcode.Mov | Opcode.Inc | Opcode.Dec =>
    match opnd with
    | Operand.Register _ => true
    | _ => false
  | Opcode.Add | Opcode.Sub | Opcode.Cmp | Opcode.And | Opcode.Xor | Opcode.Or =>
    match opnd with
    | Operand.Address _ | Operand.Immediate _ => true
    | _ => false
  | Opcode.In | Opcode.Out | Opcode.End =>
    match opnd with
    | Operand.Empty => true
    | _ => false
  | Opcode.Data v => decide (opnd = Operand.Immediate v)

/-- Whether an opcode is the synthetic Data variant. -/
def Opcode.isData : Opcode → Bool
  | Opcode.Data _ => true
  | _ => false

/-- One execution of ADD #1 (the Immediate arm of Opcode::Add), as a total function on
the engine state. -/
def addOne (s : AppContext) : AppContext :=
  (execIns Opcode.Add (Operand.Immediate 1) 0 s).getD s

/-- Whether an ExecutionInfo event is accompanied by a forced transition to Stopped in
AppContext::step: every kind except the TooManySteps advisory. -/
def stopsExecution : ExecutionInfo → Bool
  | ExecutionInfo.TooManySteps _ => false
  | _ => true

/-- A running state whose whole memory is Value 0: the first step fetches Value 0. -/
def c7s : AppContext :=
  { initCtx with execution_state := ExecutionState.Executing }

/-- The state after that step: ExecutionTerminated reported and Stopped forced. -/
def c7s2 : AppContext :=
  { c7s with
    mar := 0,
    mdr := MemoryData.Value 0,
    execution_info := some (ExecutionInfo.ExecutionTerminated 0),
    execution_state := ExecutionState.Stopped }

/-- A two-cell program IN; OUT about to run in continuous mode. -/
def c8s : AppContext :=
  { initCtx with
    memory := [MemoryData.Instruction Opcode.In Operand.Empty,
               MemoryData.Instruction Opcode.Out Operand.Empty],
    execution_state := ExecutionState.Executing }

/-- The state suspended at IN, PC already past it. -/
def c8s2 : AppContext :=
  { c8s with
    mar := 0,
    mdr := MemoryData.Instruction Opcode.In Operand.Empty,
    cir := (Opcode.In, Operand.Empty),
    pc := 1,
    execution_state := ExecutionState.ExecutingAwaitingInput }

/-- The state after supplying U+1F600 (code point 128512): ACC holds the code point
truncated to u16. -/
def c8s3 : AppContext :=
  { c8s2 with execution_state := ExecutionState.Executing, acc := 62976 }

/-- The state after the subsequent OUT: the truncated character was emitted. -/
def c8s4 : AppContext :=
  { c8s3 with
    mar := 1,
    mdr := MemoryData.Instruction Opcode.Out Operand.Empty,
    cir := (Opcode.Out, Operand.Empty),
    pc := 2,
    output := [62976] }

@[simp] theorem tooManyCheck_memory (s : AppContext) : (tooManyCheck s).memory = s.memory := by
  unfold tooManyCheck; split <;> rfl

@[simp] theorem tooManyCheck_pc (s : AppContext) : (tooManyCheck s).pc = s.pc := by
  unfold tooManyCheck; split <;> rfl

@[simp] theorem tooManyCheck_acc (s : AppContext) : (tooManyCheck s).acc = s.acc := by
  unfold tooManyCheck; split <;> rfl

@[simp] theorem tooManyCheck_ix (s : AppContext) : (tooManyCheck s).ix = s.ix := by
  unfold tooManyCheck; split <;> rfl

@[simp] theorem tooManyCheck_output (s : AppContext) : (tooManyCheck s).output = s.output := by
  unfold tooManyCheck; split <;> rfl

@[simp] theorem tooManyCheck_zero (s : AppContext) : (tooManyCheck s).zero = s.zero := by
  unfold tooManyCheck; split <;> rfl

@[simp] theorem tooManyCheck_state (s : AppContext) :
    (tooManyCheck s).execution_state = s.execution_state := by
  unfold tooManyCheck; split <;> rfl

/-- C1: each step first copies the cell at PC into MDR and PC into MAR; a Value 0 cell
emits ExecutionTerminated at the current PC and stops; a nonzero Value cell emits
ExecutionAbortedValueMet with the current PC and the value and stops; an Instruction
cell is copied into CIR and PC is incremented by exactly 1 before the opcode
executes. -/
theorem c1_step_fetch (s : AppContext) :
    (s.memory[s.pc]? = some (MemoryData.Value 0) →
      step s = some { (tooManyCheck s) with
                      mar := s.pc,
                      mdr := MemoryData.Value 0,
                      execution_info := some (ExecutionInfo.ExecutionTerminated s.pc),
                      execution_state := ExecutionState.Stopped }) ∧
    (∀ v, v ≠ 0 → s.memory[s.pc]? = some (MemoryData.Value v) →
      step s = some { (tooManyCheck s) with
                      mar := s.pc,
                      mdr := MemoryData.Value v,
                      execution_info := some (ExecutionInfo.ExecutionAbortedValueMet s.pc v),
                      execution_state := ExecutionState.Stopped }) ∧
    (∀ op opnd, s.memory[s.pc]? = some (MemoryData.Instruction op opnd) →
      step s = execIns op opnd s.pc
        { (tooManyCheck s) with
          mar := s.pc,
          mdr := MemoryData.Instruction op opnd,
          cir := (op, opnd),
          pc := s.pc + 1 }) := by
  refine ⟨fun h => ?_, fun v hv h => ?_, fun op opnd h => ?_⟩
  · simp [step, h]
  · simp [step, h, hv]
  · simp [step, h]

/-- C1 witness: the three fetch behaviors at concrete states. -/
theorem c1_step_fetch_witness :
    step { initCtx with execution_state := ExecutionState.Executing } =
      some { (tooManyCheck { initCtx with execution_state := ExecutionState.Executing }) with
             mar := ({ initCtx with execution_state := ExecutionState.Executing } : AppContext).pc,
             mdr := MemoryData.Value 0,
             execution_info := some (ExecutionInfo.ExecutionTerminated ({ initCtx with execution_state := ExecutionState.Executing } : AppContext).pc),
             execution_state := ExecutionState.Stopped } :=
  (c1_step_fetch { initCtx with execution_state := ExecutionState.Executing }).1 (by decide)

/-- C4 counterexample: the claim says a symbol-table hit yields an Address equal to the
symbol's offset, but the code casts the usize offset to u16; at offset 65536 the stored
address is 0, not the offset. -/
theorem c4_symbol_offset_truncated :
    str_to_operand ['x'] [(['x'], 65536)] = some (Operand.Address 0) ∧ (0 : Nat) ≠ 65536 := by
  decide

/-- C4 (amended): the resolution rules apply in order with the first match winning —
exact IX/ACC; an ampersand prefix parsed base 16; a B prefix parsed base 2; a hash
prefix parsed base 10 (each prefix rule failing outright when the remainder fails to
parse or exceeds 16 bits, never falling through); then a whole base-10 u16 parse giving
an Address; then a symbol-table hit giving an Address equal to the symbol's offset
reduced modulo 2^16; otherwise failure. -/
theorem c4_operand_resolution (s : List Char) (tbl : SymTable) :
    (str_to_operand ['I', 'X'] tbl = some (Operand.Register Register.Ix)) ∧
    (str_to_operand ['A', 'C', 'C'] tbl = some (Operand.Register Register.Acc)) ∧
    (s ≠ ['I', 'X'] → s ≠ ['A', 'C', 'C'] →
      ((s.head? = some '&' →
          str_to_operand s tbl = (parseU16 16 s.tail).map Operand.Immediate) ∧
       (s.head? ≠ some '&' → s.head? = some 'B' →
          str_to_operand s tbl = (parseU16 2 s.tail).map Operand.Immediate) ∧
       (s.head? ≠ some '&' → s.head? ≠ some 'B' → s.head? = some '#' →
          str_to_operand s tbl = (parseU16 10 s.tail).map Operand.Immediate) ∧
       (s.head? ≠ some '&' → s.head? ≠ some 'B' → s.head? ≠ some '#' →
          str_to_operand s tbl =
            match parseU16 10 s with
            | some v => some (Operand.Address v)
            | none =>
              match lookupTbl tbl s with
              | some off => some (Operand.Address (off % 65536))
              | none => none))) := by
  refine ⟨by simp [str_to_operand], by simp [str_to_operand], fun h1 h2 => ⟨?_, ?_, ?_, ?_⟩⟩
  · intro h
    simp only [str_to_operand, if_neg h1, if_neg h2, if_pos h]
    cases parseU16 16 s.tail <;> rfl
  · intro hn h
    simp only [str_to_operand, if_neg h1, if_neg h2, if_neg hn, if_pos h]
    cases parseU16 2 s.tail <;> rfl
  · intro hn hb h
    simp only [str_to_operand, if_neg h1, if_neg h2, if_neg hn, if_neg hb, if_pos h]
    cases parseU16 10 s.tail <;> rfl
  · intro hn hb hh
    simp only [str_to_operand, if_neg h1, if_neg h2, if_neg hn, if_neg hb, if_neg hh]

/-- C4 witness: a token with a matching ampersand prefix whose remainder does not parse
fails outright even though the token is in the symbol table. -/
theorem c4_operand_resolution_witness :
    str_to_operand ['&', 'z'] [(['&', 'z'], 5)] = (parseU16 16 ['z']).map Operand.Immediate ∧
      parseU16 16 ['z'] = none :=
  ⟨((c4_operand_resolution ['&', 'z'] [(['&', 'z'], 5)]).2.2 (by decide) (by decide)).1 rfl,
   by decide⟩

/-- C6: a fetched LDD with in-range Address a whose target cell holds an instruction
emits InvalidLoad carrying the instruction's address and a, forces Stopped, and leaves
ACC unmodified. -/
theorem c6_ldd_invalid_load (s : AppContext) (a : Nat) (op : Opcode) (od : Operand)
    (hfetch : s.memory[s.pc]? =
      some (MemoryData.Instruction Opcode.Ldd (Operand.Address a)))
    (_ha : a ≤ 255)
    (hcell : s.memory[a]? = some (MemoryData.Instruction op od)) :
    (step s).map AppContext.execution_info = some (some (ExecutionInfo.InvalidLoad s.pc a)) ∧
    (step s).map AppContext.execution_state = some ExecutionState.Stopped ∧
    (step s).map AppContext.acc = some s.acc := by
  refine ⟨?_, ?_, ?_⟩ <;> simp [step, hfetch, execIns, hcell]

/-- C6 witness: LDD 1 at address 0 where cell 1 holds an instruction. -/
theorem c6_ldd_invalid_load_witness :
    (step { initCtx with
        memory := [MemoryData.Instruction Opcode.Ldd (Operand.Address 1),
                   MemoryData.Instruction Opcode.End Operand.Empty],
        execution_state := ExecutionState.Executing }).map AppContext.execution_info =
      some (some (ExecutionInfo.InvalidLoad 0 1)) ∧
    (step { initCtx with
        memory := [MemoryData.Instruction Opcode.Ldd (Operand.Address 1),
                   MemoryData.Instruction Opcode.End Operand.Empty],
        execution_state := ExecutionState.Executing }).map AppContext.execution_state =
      some ExecutionState.Stopped ∧
    (step { initCtx with
        memory := [MemoryData.Instruction Opcode.Ldd (Operand.Address 1),
                   MemoryData.Instruction Opcode.End Operand.Empty],
        execution_state := ExecutionState.Executing }).map AppContext.acc = some 0 :=
  c6_ldd_invalid_load _ 1 Opcode.End Operand.Empty (by decide) (by decide) (by decide)

/-- C9: the step operation is not total in PC — a non-jump instruction loaded (and
fetched) at address 255 leaves PC = 256, and the next step's unguarded memory index is
out of bounds (an abort, modeled as none), with no ExecutionInfo event reported. -/
theorem c9_pc_overflow :
    loadProgram [(Opcode.Ldm, Operand.Immediate 0)] 255 initCtx.memory =
      LoadResult.ok c9mem ∧
    step c9s = some c9s2 ∧
    c9s2.pc = 256 ∧
    step c9s2 = none ∧
    c9s2.execution_info = none := by
  decide

/-- C10: LDX computes addr + IX in 16-bit arithmetic before the bounds check; from the
reachable state after LDR #65535, executing LDX 65535 overflows the u16 addition
(a debug-build abort, modeled as none) instead of reporting AddressNotInMemory. -/
theorem c10_ldx_effective_address_overflow :
    assemble c10src = Except.ok c10prog ∧
    loadProgram c10prog 0 initCtx.memory = LoadResult.ok c10mem ∧
    step c10s = some c10s2 ∧
    c10s2.ix = 65535 ∧
    step c10s2 = none := by
  decide

theorem checkOperandLine_table (idx : Nat) (op : Opcode) (opnd : Operand)
    (p : Opcode × Operand) (h : checkOperandLine idx op opnd = Except.ok p) :
    operandTable p.1 p.2 = true := by
  obtain ⟨p1, p2⟩ := p
  cases op <;> cases opnd <;> simp [checkOperandLine] at h <;>
    (obtain ⟨rfl, rfl⟩ := h; simp [operandTable])

theorem pass2Line_table (tbl : SymTable) (idx : Nat) (line : List Char)
    (ins : Opcode × Operand) (h : pass2Line tbl idx line = Except.ok (some ins)) :
    operandTable ins.1 ins.2 = true := by
  unfold pass2Line at h
  repeat' split at h
  all_goals first
    | exact Except.noConfusion h
    | (injection h with h
       first
         | exact Option.noConfusion h
         | (injection h with h
            subst h
            first
              | rfl
              | (simp [operandTable]; done)
              | exact checkOperandLine_table _ _ _ _ (by assumption)))

theorem pass2_table (tbl : SymTable) (lines : List (List Char)) :
    ∀ idx acc res, pass2 tbl lines idx acc = Except.ok res →
      (∀ p ∈ acc, operandTable p.1 p.2 = true) →
      ∀ p ∈ res, operandTable p.1 p.2 = true := by
  induction lines with
  | nil =>
    intro idx acc res h hacc
    injection h with h
    subst h
    exact hacc
  | cons line rest ih =>
    intro idx acc res h hacc
    unfold pass2 at h
    split at h
    · exact absurd h (by simp)
    · exact ih _ _ _ h hacc
    · refine ih _ _ _ h fun p hp => ?_
      rcases List.mem_append.1 hp with hp | hp
      · exact hacc p hp
      · rcases List.mem_singleton.1 hp with rfl
        exact pass2Line_table _ _ _ _ (by assumption)

/-- C2: every sequence the assembler accepts satisfies the per-opcode operand table —
LDM, LDR, LSL, LSR carry an Immediate; LDD, LDI, LDX, STO, JMP, CMI, JPE, JPN carry an
Address; MOV, INC, DEC carry a Register; ADD, SUB, CMP, AND, XOR, OR carry an Address
or an Immediate; IN, OUT, END carry Empty; and Data v carries Immediate v. -/
theorem c2_assemble_operand_table (source : List Char) (seq : List (Opcode × Operand))
    (h : assemble source = Except.ok seq) :
    ∀ p ∈ seq, operandTable p.1 p.2 = true := by
  unfold assemble at h
  exact pass2_table _ _ _ _ _ h (by simp)

/-- C2 witness: the assembled END program satisfies the table. -/
theorem c2_assemble_operand_table_witness :
    operandTable Opcode.End Operand.Empty = true :=
  c2_assemble_operand_table ['E', 'N', 'D'] [(Opcode.End, Operand.Empty)] (by decide)
    (Opcode.End, Operand.Empty) (by decide)

theorem loadWrite_length (L : Nat) (prog : List (Opcode × Operand)) :
    ∀ i mem mem', loadWrite L prog i mem = some mem' → mem'.length = mem.length := by
  induction prog with
  | nil =>
    intro i mem mem' h
    injection h with h
    subst h
    rfl
  | cons ins rest ih =>
    intro i mem mem' h
    unfold loadWrite at h
    split at h
    · have h2 := ih (i + 1) _ _ h
      simpa using h2
    · exact Option.noConfusion h

theorem loadWrite_lower (L : Nat) (prog : List (Opcode × Operand)) :
    ∀ i mem mem', loadWrite L prog i mem = some mem' →
      ∀ k, k < L + i → mem'[k]? = mem[k]? := by
  induction prog with
  | nil =>
    intro i mem mem' h k _
    injection h with h
    subst h
    rfl
  | cons ins rest ih =>
    intro i mem mem' h k hk
    unfold loadWrite at h
    split at h
    · have h2 := ih (i + 1) _ _ h k (by omega)
      rw [h2, List.getElem?_set_ne (by omega)]
    · exact Option.noConfusion h

theorem loadWrite_get (L : Nat) (prog : List (Opcode × Operand)) :
    ∀ i mem mem', loadWrite L prog i mem = some mem' →
      L + i + prog.length ≤ mem.length →
      ∀ j (hj : j < prog.length),
        ∃ cell, storeCell L (prog.get ⟨j, hj⟩).1 (prog.get ⟨j, hj⟩).2 = some cell ∧
          mem'[L + i + j]? = some cell := by
  induction prog with
  | nil =>
    intro i mem mem' _ _ j hj
    exact absurd hj (by simp)
  | cons ins rest ih =>
    intro i mem mem' h hlen j hj
    unfold loadWrite at h
    split at h
    next cell hcell =>
      match j with
      | 0 =>
        refine ⟨cell, hcell, ?_⟩
        have hlow := loadWrite_lower L rest (i + 1) _ _ h (L + i) (by omega)
        rw [Nat.add_zero, hlow,
          List.getElem?_set_self (by simp only [List.length_cons] at hlen; omega)]
      | Nat.succ j' =>
        have h2 := ih (i + 1) _ _ h
          (by simp only [List.length_set, List.length_cons] at hlen ⊢; omega) j'
          (by simpa [Nat.succ_lt_succ_iff] using hj)
        have harith : L + (i + 1) + j' = L + i + (j' + 1) := by omega
        rw [harith] at h2
        exact h2
    next hcell => exact Option.noConfusion h

/-- C3: loading fails with ProgramTooLong carrying the program size and 256 - L exactly
when the program is longer than 256 - L; on success, instruction i is written to cell
L + i, a Data v instruction is stored as the plain cell Value v, an Address operand of
a non-Data instruction has exactly L added, and Immediate, Register and Empty operands
are stored unchanged. -/
theorem c3_load_program (S : List (Opcode × Operand)) (L : Nat) (mem : List MemoryData)
    (hL : L ≤ 255) (hmem : mem.length = 256) :
    (∀ p a, loadProgram S L mem = LoadResult.tooLong p a ↔
      (256 - L < S.length ∧ p = S.length ∧ a = 256 - L)) ∧
    (∀ mem', loadProgram S L mem = LoadResult.ok mem' →
      ∀ j (hj : j < S.length),
        (∀ v, (S.get ⟨j, hj⟩).1 = Opcode.Data v →
          mem'[L + j]? = some (MemoryData.Value v)) ∧
        ((S.get ⟨j, hj⟩).1.isData = false →
          (∀ a, (S.get ⟨j, hj⟩).2 = Operand.Address a →
            mem'[L + j]? =
              some (MemoryData.Instruction (S.get ⟨j, hj⟩).1 (Operand.Address (a + L)))) ∧
          (∀ v, (S.get ⟨j, hj⟩).2 = Operand.Immediate v →
            mem'[L + j]? =
              some (MemoryData.Instruction (S.get ⟨j, hj⟩).1 (Operand.Immediate v))) ∧
          (∀ r, (S.get ⟨j, hj⟩).2 = Operand.Register r →
            mem'[L + j]? =
              some (MemoryData.Instruction (S.get ⟨j, hj⟩).1 (Operand.Register r))) ∧
          ((S.get ⟨j, hj⟩).2 = Operand.Empty →
            mem'[L + j]? =
              some (MemoryData.Instruction (S.get ⟨j, hj⟩).1 Operand.Empty)))) := by
  constructor
  · intro p a
    unfold loadProgram
    split
    · constructor
      · intro h
        injection h with h1 h2
        exact ⟨by assumption, h1.symm, h2.symm⟩
      · rintro ⟨_, rfl, rfl⟩
        rfl
    · constructor
      · intro h
        split at h <;> exact LoadResult.noConfusion h
      · rintro ⟨hlt, _, _⟩
        omega
  · intro mem' hok j hj
    unfold loadProgram at hok
    split at hok
    · exact LoadResult.noConfusion hok
    · rename_i hfit
      split at hok
      · rename_i mem2 hw
        injection hok with hok
        subst hok
        obtain ⟨cell, hcell, hget⟩ := loadWrite_get L S 0 mem mem2 hw (by omega) j hj
        rw [Nat.add_zero] at hget
        constructor
        · intro v hv
          rw [hget]
          unfold storeCell at hcell
          rw [hv] at hcell
          injection hcell with hcell
          rw [hcell]
        · intro hnd
          have hstore : storeCell L (S.get ⟨j, hj⟩).1 (S.get ⟨j, hj⟩).2 = some cell := hcell
          refine ⟨fun a ha => ?_, fun v hv => ?_, fun r hr => ?_, fun he => ?_⟩ <;>
            (rw [hget]
             unfold storeCell at hstore
             revert hstore
             cases hop : (S.get ⟨j, hj⟩).1 <;> simp_all [Opcode.isData])
      · exact LoadResult.noConfusion hok

/-- C3 witness: a 1-instruction program loads successfully at base 255 (size 1,
available 1), with the STO address relocated by exactly 255. -/
theorem c3_load_program_witness :
    ((loadProgram [(Opcode.Sto, Operand.Address 5)] 255 initCtx.memory =
        LoadResult.tooLong 1 1) ↔ (1 < 1 ∧ 1 = 1 ∧ 1 = 1)) ∧
    (loadProgram [(Opcode.Sto, Operand.Address 5)] 255 initCtx.memory =
      LoadResult.ok ((List.replicate 256 (MemoryData.Value 0)).set 255
        (MemoryData.Instruction Opcode.Sto (Operand.Address 260)))) ∧
    ((List.replicate 256 (MemoryData.Value 0)).set 255
        (MemoryData.Instruction Opcode.Sto (Operand.Address 260)))[255 + 0]? =
      some (MemoryData.Instruction Opcode.Sto (Operand.Address (5 + 255))) := by
  refine ⟨?_, ?_, ?_⟩
  · have h := (c3_load_program [(Opcode.Sto, Operand.Address 5)] 255 initCtx.memory
      (by decide) (by decide)).1 1 1
    simpa using h
  · decide
  · have h := ((c3_load_program [(Opcode.Sto, Operand.Address 5)] 255 initCtx.memory
      (by decide) (by decide)).2
      ((List.replicate 256 (MemoryData.Value 0)).set 255
        (MemoryData.Instruction Opcode.Sto (Operand.Address 260)))
      (by decide) 0 (by decide)).2 (by decide)
    exact h.1 5 rfl

theorem addOne_acc (t : AppContext) : (addOne t).acc = (t.acc + 1) % 65536 := rfl

theorem addOne_carry (t : AppContext) :
    (addOne t).carry = decide (65536 ≤ t.acc + 1) := rfl

theorem addOne_overflow (t : AppContext) :
    (addOne t).overflow = decide (65536 ≤ t.acc + 1) := rfl

theorem addOne_zero (t : AppContext) :
    (addOne t).zero = decide ((t.acc + 1) % 65536 = 0) := rfl

theorem addOne_iterate_acc (s : AppContext) (hs : s.acc < 65536) :
    ∀ n, (addOne^[n] s).acc = (s.acc + n) % 65536 := by
  intro n
  induction n with
  | zero => simp [Nat.mod_eq_of_lt hs]
  | succ n ih =>
    rw [Function.iterate_succ_apply', addOne_acc, ih]
    omega

/-- C5: ADD with an Immediate performs a 16-bit wrapping add into ACC, with carry set
to whether the addition wrapped, zero to whether the result is 0, overflow equal to
carry, and sign to bit 15 of the result; from ACC = 0, executing ADD #1 exactly 65536
times returns ACC to 0, with carry and overflow true on the wrap step, and zero true on
the wrap step and on no other of the 65536 steps. -/
theorem c5_add_wraparound (s : AppContext) (h0 : s.acc = 0) :
    (∀ (t : AppContext) (v c : Nat),
      execIns Opcode.Add (Operand.Immediate v) c t =
        some { t with
               acc := (t.acc + v) % 65536,
               carry := decide (65536 ≤ t.acc + v),
               zero := decide ((t.acc + v) % 65536 = 0),
               overflow := decide (65536 ≤ t.acc + v),
               sign := bit15 ((t.acc + v) % 65536) }) ∧
    (∀ (t : AppContext) (c : Nat),
      execIns Opcode.Add (Operand.Immediate 1) c t = some (addOne t)) ∧
    (addOne^[65536] s).acc = 0 ∧
    (addOne^[65536] s).carry = true ∧
    (addOne^[65536] s).overflow = true ∧
    (addOne^[65536] s).zero = true ∧
    (∀ n, 0 < n → n < 65536 → (addOne^[n] s).zero = false) := by
  have hs : s.acc < 65536 := by omega
  have hacc := addOne_iterate_acc s hs
  have h65 : (65536 : Nat) = 65535 + 1 := rfl
  refine ⟨fun t v c => rfl, fun t c => rfl, ?_, ?_, ?_, ?_, ?_⟩
  · rw [hacc 65536, h0]
  · rw [h65, Function.iterate_succ_apply', addOne_carry, hacc 65535, h0]
    decide
  · rw [h65, Function.iterate_succ_apply', addOne_overflow, hacc 65535, h0]
    decide
  · rw [h65, Function.iterate_succ_apply', addOne_zero, hacc 65535, h0]
    decide
  · intro n hn1 hn2
    obtain ⟨m, rfl⟩ : ∃ m, n = m + 1 := ⟨n - 1, by omega⟩
    rw [Function.iterate_succ_apply', addOne_zero, hacc m, h0]
    simp only [decide_eq_false_iff_not]
    omega

/-- C5 witness: the wraparound run from the initial state (ACC = 0). -/
theorem c5_add_wraparound_witness :
    initCtx.acc = 0 ∧ (addOne^[65536] initCtx).acc = 0 ∧
      (addOne^[65536] initCtx).zero = true :=
  ⟨rfl, (c5_add_wraparound initCtx rfl).2.2.1,
    (c5_add_wraparound initCtx rfl).2.2.2.2.2.1⟩

/-- C7 counterexample: a step that emits ExecutionTerminated does force a transition to
Stopped (from Executing), contrary to the claim that only the three abnormal-stop kinds
are accompanied by a forced transition. -/
theorem c7_terminated_forces_stop :
    step c7s = some c7s2 ∧
    c7s2.execution_info = some (ExecutionInfo.ExecutionTerminated 0) ∧
    c7s2.execution_state = ExecutionState.Stopped ∧
    c7s.execution_state = ExecutionState.Executing := by
  decide

theorem execIns_stop_iff (op : Opcode) (opnd : Operand) (cur : Nat) (s s' : AppContext)
    (e : ExecutionInfo)
    (hinfo : s.execution_info = none ∨
      ∃ k, s.execution_info = some (ExecutionInfo.TooManySteps k))
    (hstate : s.execution_state ≠ ExecutionState.Stopped)
    (hex : execIns op opnd cur s = some s')
    (he : s'.execution_info = some e) :
    (s'.execution_state = ExecutionState.Stopped ↔ stopsExecution e = true) := by
  cases op <;> cases opnd <;>
    (simp only [execIns] at hex
     repeat' split at hex) <;>
    first
      | exact Option.noConfusion hex
      | (injection hex with hex
         subst hex
         rcases hinfo with hinfo | ⟨k, hinfo⟩ <;> simp_all [stopsExecution] <;>
           (subst he; rfl))

/-- C7 (amended): a step from a non-Stopped state with no prior event that emits an
ExecutionInfo event forces a transition to Stopped if and only if the event is one of
ExecutionTerminated, ExecutionAbortedValueMet, AddressNotInMemory, or InvalidLoad;
only the TooManySteps advisory leaves the state unforced. -/
theorem c7_stop_iff_event (s s' : AppContext) (e : ExecutionInfo)
    (hinfo : s.execution_info = none)
    (hstate : s.execution_state ≠ ExecutionState.Stopped)
    (hstep : step s = some s')
    (he : s'.execution_info = some e) :
    (s'.execution_state = ExecutionState.Stopped ↔ stopsExecution e = true) := by
  simp only [step] at hstep
  split at hstep
  · split at hstep <;>
      (injection hstep with hstep
       subst hstep
       simp_all [stopsExecution]
       subst he
       rfl)
  · rename_i op opnd heq
    refine execIns_stop_iff op opnd _ _ _ e ?_ ?_ hstep he
    · by_cases h1000 : 1000 ≤ s.ins_executed
      · exact Or.inr ⟨s.ins_executed, by simp [tooManyCheck, h1000]⟩
      · exact Or.inl (by simp [tooManyCheck, h1000, hinfo])
    · simpa using hstate
  · exact Option.noConfusion hstep

/-- C7 witness: the ExecutionTerminated step from c7s instantiates the amended
equivalence. -/
theorem c7_stop_iff_event_witness :
    c7s2.execution_state = ExecutionState.Stopped ↔
      stopsExecution (ExecutionInfo.ExecutionTerminated 0) = true :=
  c7_stop_iff_event c7s c7s2 (ExecutionInfo.ExecutionTerminated 0) rfl (by decide)
    (by decide) rfl

/-- C8 counterexample: supplying the character U+1F600 (code point 128512) while
suspended at IN stores 128512 mod 2^16 = 62976 into ACC (char cast to u16), not the
character's code point, and the subsequent OUT emits U+F600, not the supplied
character. -/
theorem c8_astral_char_truncated :
    step c8s = some c8s2 ∧
    c8s2.execution_state = ExecutionState.ExecutingAwaitingInput ∧
    sendInput { c8s2 with input := [128512] } = some c8s3 ∧
    c8s3.acc = 62976 ∧
    (62976 : Nat) ≠ 128512 ∧
    step c8s3 = some c8s4 ∧
    c8s4.output = [62976] := by
  decide

/-- C8 (amended): for a program with IN immediately followed by OUT running in
continuous mode, the IN step suspends to ExecutingAwaitingInput with PC already
advanced past IN; supplying one character whose code point fits in 16 bits sets ACC to
that code point, clears the input buffer, and resumes Executing; and the subsequent OUT
step appends that same character to the console output. (Characters beyond U+FFFF are
truncated mod 2^16 — see the counterexample.) -/
theorem c8_in_out_roundtrip (s : AppContext) (c : Nat)
    (hstate : s.execution_state = ExecutionState.Executing)
    (hin : s.memory[s.pc]? = some (MemoryData.Instruction Opcode.In Operand.Empty))
    (hout : s.memory[s.pc + 1]? =
      some (MemoryData.Instruction Opcode.Out Operand.Empty))
    (hc : c < 65536)
    (hsur : ¬(55296 ≤ c ∧ c ≤ 57343)) :
    ((step s).map AppContext.execution_state =
      some ExecutionState.ExecutingAwaitingInput) ∧
    ((step s).map AppContext.pc = some (s.pc + 1)) ∧
    ((Option.bind (step s) (fun s1 => sendInput { s1 with input := [c] })).map
        AppContext.acc = some c) ∧
    ((Option.bind (step s) (fun s1 => sendInput { s1 with input := [c] })).map
        AppContext.input = some []) ∧
    ((Option.bind (step s) (fun s1 => sendInput { s1 with input := [c] })).map
        AppContext.execution_state = some ExecutionState.Executing) ∧
    ((Option.bind (Option.bind (step s)
          (fun s1 => sendInput { s1 with input := [c] })) step).map
        AppContext.output = some (s.output ++ [c])) := by
  refine ⟨?_, ?_, ?_, ?_, ?_, ?_⟩ <;>
    simp [step, execIns, sendInput, outCode, hin, hout, hstate, hsur,
      Nat.mod_eq_of_lt hc]

/-- C8 witness: the round trip with the character H (code point 72). -/
theorem c8_in_out_roundtrip_witness :
    ((step c8s).map AppContext.execution_state =
      some ExecutionState.ExecutingAwaitingInput) ∧
    ((step c8s).map AppContext.pc = some (0 + 1)) ∧
    ((Option.bind (step c8s) (fun s1 => sendInput { s1 with input := [72] })).map
        AppContext.acc = some 72) ∧
    ((Option.bind (step c8s) (fun s1 => sendInput { s1 with input := [72] })).map
        AppContext.input = some []) ∧
    ((Option.bind (step c8s) (fun s1 => sendInput { s1 with input := [72] })).map
        AppContext.execution_state = some ExecutionState.Executing) ∧
    ((Option.bind (Option.bind (step c8s)
          (fun s1 => sendInput { s1 with input := [72] })) step).map
        AppContext.output = some ([] ++ [72])) := by
  have h := c8_in_out_roundtrip c8s 72 (by decide) (by decide) (by decide) (by decide)
    (by decide)
  exact h
